import Mathlib

/-!
Shallow embedding of `src/mini_humanize/sizecodec.py`: the byte-size
formatter `naturalsize` and the parser `parse_size`, together with the
theorems that settle the claims about them.

Modelling conventions:
* Python strings are modelled as `List Char` internally; the public entry
  points take and return Lean `String`s.
* Python `decimal.Decimal` values are modelled exactly as a pair
  `coeff * 10 ^ exp` (`Dec`).  The source sets the decimal context
  precision to 100 significant digits; every multiplication performed here
  has a product whose coefficient stays far below 100 digits on all inputs
  considered, so the exact model agrees with the source on them.
* Python floats (used only by the formatter) are modelled as exact
  rationals `num / den` (`PyFloat`).  Every concrete value appearing in a
  claim (0, -0.0, 1, powers of 1024) is exactly representable as a double
  and all operations the formatter performs on them are exact, so the
  model agrees with the source there.  Python's `-0.0 < 0` is `False`, so
  a negative-zero float behaves exactly like the rational 0 in the sign
  computation, which is how the model treats it.
* The printf template `format` of `naturalsize` is modelled by the number
  of fractional digits of a `"%.<digits>f"` template (the default is
  `"%.1f"`, i.e. `digits = 1`); `%` formatting of a float rounds half to
  even, which `formatFixed` reproduces.
* Python exceptions are modelled as an error inductive `ParseErr`, one
  constructor per `raise` site, with `ParseErr.excClass` recording the
  exception class of each site (every `raise` in `parse_size` is a
  `ValueError`).
-/

namespace Sizecodec

/-- Python whitespace stripping from the left, `str.lstrip()`. -/
def lstripWs (l : List Char) : List Char := l.dropWhile Char.isWhitespace

/-- Python whitespace stripping from the right, `str.rstrip()`. -/
def rstripWs (l : List Char) : List Char :=
  (l.reverse.dropWhile Char.isWhitespace).reverse

/-- Python `str.strip()`. -/
def stripWs (l : List Char) : List Char := rstripWs (lstripWs l)

/-- Python `str.rstrip(c)` for a single-character argument. -/
def rstripChar (c : Char) (l : List Char) : List Char :=
  (l.reverse.dropWhile (fun x => x = c)).reverse

/-- Value of a list of ASCII digits, as Python `int`/`Decimal` digit parsing. -/
def digitsToNat (l : List Char) : ℕ :=
  l.foldl (fun a c => 10 * a + (c.toNat - 48)) 0

/-- Exception class of a raised Python error. -/
inductive PyExcClass where
  | typeError
  | valueError
  deriving DecidableEq

/-- One constructor per `raise` site of `parse_size`
(`src/mini_humanize/sizecodec.py`), named after its message:
* `textMustBeNonEmptyString` — "text must be a non-empty string" (lines 124-125 and 130-131)
* `noNumericValueFound` — "no numeric value found in {text!r}" (line 186)
* `invalidThousandsGrouping` — "invalid thousands grouping in {text!r}" (lines 195, 198)
* `thousandsSeparatorNotAllowed` — "thousands separator found in number but
  allow_thousands_separator is False" (lines 206-208)
* `invalidNumericValue` — "invalid numeric value {number_part!r}: {exc}" (line 223)
* `unknownUnit` — "unknown unit {unit_part!r}" (lines 240 and 246)
* `singleLetterAmbiguous` — "single-letter suffix (e.g. 'K') is ambiguous; set
  default_gnu or use a B/iB suffix" (lines 252-254)
* `unknownOrUnsupportedUnit` — "unknown or unsupported unit {unit_part!r}" (line 267)
* `negativeSizesNotAllowed` — "negative sizes are not allowed" (line 284)
* `lessThanMinimum` — "value {rounded} is less than minimum allowed {min_value}" (line 288)
* `greaterThanMaximum` — "value {rounded} is greater than maximum allowed {max_value}" (line 290)
The "invalid rounding mode" raise (line 278) guards a string-typed mode and
is unrepresentable here because `RoundingMode` is an enumeration. -/
inductive ParseErr where
  | textMustBeNonEmptyString
  | noNumericValueFound
  | invalidThousandsGrouping
  | thousandsSeparatorNotAllowed
  | invalidNumericValue
  | unknownUnit
  | singleLetterAmbiguous
  | unknownOrUnsupportedUnit
  | negativeSizesNotAllowed
  | lessThanMinimum
  | greaterThanMaximum
  deriving DecidableEq

/-- Every `raise` in `parse_size` is a `ValueError`; no site raises
`TypeError` (the non-string guard on line 124 also raises `ValueError`). -/
def ParseErr.excClass : ParseErr → PyExcClass
  | .textMustBeNonEmptyString => .valueError
  | .noNumericValueFound => .valueError
  | .invalidThousandsGrouping => .valueError
  | .thousandsSeparatorNotAllowed => .valueError
  | .invalidNumericValue => .valueError
  | .unknownUnit => .valueError
  | .singleLetterAmbiguous => .valueError
  | .unknownOrUnsupportedUnit => .valueError
  | .negativeSizesNotAllowed => .valueError
  | .lessThanMinimum => .valueError
  | .greaterThanMaximum => .valueError

/-- `RoundingMode = Literal["floor", "nearest", "ceil"]` of the source. -/
inductive RoundingMode where
  | floor
  | nearest
  | ceil
  deriving DecidableEq

/-- Keyword arguments of `parse_size`, in source order. -/
structure ParseSpec where
  default_binary : Bool
  default_gnu : Bool
  allow_thousands_separator : Bool
  rounding : RoundingMode
  strict : Bool
  locale : String
  allow_negative : Bool
  min_value : Option ℤ
  max_value : Option ℤ

/-- The defaults of `parse_size`'s keyword arguments. -/
def defaultSpec : ParseSpec :=
  ⟨false, false, false, .nearest, true, "en_US", false, none, none⟩

/-- The `LOCALES` table (decimal point, thousands separator), with the
`en_US` fallback of `LOCALES.get(locale, LOCALES["en_US"])`. -/
def LOCALES (locale : String) : Char × Char :=
  if locale = "en_US" then ('.', ',')
  else if locale = "C" then ('.', ',')
  else if locale = "POSIX" then ('.', ',')
  else if locale = "de_DE" then (',', '.')
  else ('.', ',')

/-- The scanning loop of `parse_size` (lines 139-177) that finds where the
unit starts.  It consumes digits, one decimal point (before any exponent),
thousands separators when allowed, and a well-formed exponent marker
(`e`/`E`, optional sign, at least one digit); any other character — or an
`e` not followed by a valid exponent — ends the number.  The source records
the index `unit_start` and slices; this model returns the two slices
directly.  The source consumes the whole exponent digit run inside the
exponent branch; consuming just the first digit and letting the main
loop's digit branch take the rest (as here) visits the same characters
with the same flags. -/
def numberUnitSplit (dp ts : Char) (allowSep : Bool) :
    List Char → Bool → Bool → List Char × List Char
  | [], _, _ => ([], [])
  | c :: rest, sd, se =>
    if c.isDigit then
      let p := numberUnitSplit dp ts allowSep rest sd se
      (c :: p.1, p.2)
    else if c = dp ∧ sd = false ∧ se = false then
      let p := numberUnitSplit dp ts allowSep rest true se
      (c :: p.1, p.2)
    else if allowSep = true ∧ c = ts ∧ se = false then
      let p := numberUnitSplit dp ts allowSep rest sd se
      (c :: p.1, p.2)
    else if (c = 'e' ∨ c = 'E') ∧ se = false then
      match rest with
      | c2 :: rest2 =>
        if c2 = '+' ∨ c2 = '-' then
          match rest2 with
          | c3 :: rest3 =>
            if c3.isDigit then
              let p := numberUnitSplit dp ts allowSep rest3 sd true
              (c :: c2 :: c3 :: p.1, p.2)
            else ([], c :: rest)
          | [] => ([], c :: rest)
        else if c2.isDigit then
          let p := numberUnitSplit dp ts allowSep rest2 sd true
          (c :: c2 :: p.1, p.2)
        else ([], c :: rest)
      | [] => ([], c :: rest)
    else ([], c :: rest)

/-- An exact `decimal.Decimal` value, `coeff * 10 ^ exp`. -/
structure Dec where
  coeff : ℤ
  exp : ℤ
  deriving DecidableEq

/-- Exponent part of a `Decimal` literal: optional sign then at least one
digit, consuming the whole remainder. -/
def decExpPart (c : ℤ) (e0 : ℤ) (r : List Char) : Option Dec :=
  let sr : ℤ × List Char :=
    match r with
    | '+' :: t => (1, t)
    | '-' :: t => (-1, t)
    | t => (1, t)
  let ed := sr.2.takeWhile Char.isDigit
  let r3 := sr.2.dropWhile Char.isDigit
  if ed = [] ∨ r3 ≠ [] then none
  else some ⟨c, e0 + sr.1 * (digitsToNat ed : ℤ)⟩

/-- What may follow the mantissa of a `Decimal` literal: nothing, or an
exponent introduced by `e`/`E`. -/
def decTail (c : ℤ) (e0 : ℤ) (r : List Char) : Option Dec :=
  match r with
  | [] => some ⟨c, e0⟩
  | x :: r3 => if x = 'e' ∨ x = 'E' then decExpPart c e0 r3 else none

/-- `Decimal(number_part)` (line 221) on the unsigned numeric literals that
can reach it: `digits [. digits]` or `. digits`, with an optional exponent.
A literal with no mantissa digit fails, as `Decimal` raises there.  (The
sign was already split off by `parse_size`, and the special values
`Infinity`/`NaN` that `Decimal` would also accept cannot reach this point:
the scan admits no such letters into `number_part`.) -/
def decLiteral (l : List Char) : Option Dec :=
  let ip := l.takeWhile Char.isDigit
  let r1 := l.dropWhile Char.isDigit
  let fr : List Char × List Char :=
    match r1 with
    | '.' :: r => (r.takeWhile Char.isDigit, r.dropWhile Char.isDigit)
    | _ => ([], r1)
  if ip = [] ∧ fr.1 = [] then none
  else decTail (digitsToNat (ip ++ fr.1) : ℤ) (-(fr.1.length : ℤ)) fr.2

/-- The `powers` dict `{"k": 1, "m": 2, "g": 3, "t": 4, "p": 5, "e": 6}`
(line 231).  Note it stops at `e`: `z` and `y` are absent. -/
def powers (c : Char) : Option ℕ :=
  if c = 'k' then some 1
  else if c = 'm' then some 2
  else if c = 'g' then some 3
  else if c = 't' then some 4
  else if c = 'p' then some 5
  else if c = 'e' then some 6
  else none

/-- Lookup of a string key in the `powers` dict: only single-character
keys exist, so longer or empty prefixes miss. -/
def strKey (pfx : List Char) : Option ℕ :=
  match pfx with
  | [c] => powers c
  | _ => none

/-- The permissive fallback of unit resolution (lines 258-265): with
`strict=False`, a token whose first letter is a known prefix gets that
prefix's multiplier, anything else counts as bytes; with `strict=True`
this is the "unknown or unsupported unit" raise. -/
def unitFallback (u : List Char) (default_binary strict : Bool) : Except ParseErr ℕ :=
  if strict = false then
    match u with
    | c :: _ =>
      match powers c with
      | some p => .ok ((if default_binary then 1024 else 1000) ^ p)
      | none => .ok 1
    | [] => .ok 1
  else .error .unknownOrUnsupportedUnit

/-- Unit resolution of `parse_size` (lines 225-267): case-fold, strip one
trailing `s`, then try in order: byte forms, explicit-binary `…ib` forms,
legacy `…b` forms (base chosen by `default_binary`), single-letter GNU
forms (guarded by `default_gnu`/`strict`), and finally the permissive
fallback. -/
def resolveUnit (unit_part : List Char) (default_binary default_gnu strict : Bool) :
    Except ParseErr ℕ :=
  let u0 := unit_part.map Char.toLower
  let u := if u0.getLast? = some 's' then u0.dropLast else u0
  if u = [] ∨ u = ['b'] ∨ u = ['b', 'y', 't', 'e'] then .ok 1
  else if ['i', 'b'].isSuffixOf u then
    match strKey (u.take (u.length - 2)) with
    | none => .error .unknownUnit
    | some p => .ok (1024 ^ p)
  else if ['b'].isSuffixOf u then
    match strKey (u.take (u.length - 1)) with
    | none => .error .unknownUnit
    | some p => .ok ((if default_binary then 1024 else 1000) ^ p)
  else
    match u with
    | [c] =>
      match powers c with
      | some p =>
        if default_gnu = false ∧ strict = true then .error .singleLetterAmbiguous
        else .ok ((if default_binary then 1024 else 1000) ^ p)
      | none => unitFallback u default_binary strict
    | _ => unitFallback u default_binary strict

/-- Python `str.partition(sep)` restricted to the two parts the source
uses (text before the first `sep`, text after it; both empty tail when
`sep` is absent gives the same behaviour as the source's use). -/
def pypartition (sep : Char) (l : List Char) : List Char × List Char :=
  (l.takeWhile (fun c => c ≠ sep), (l.dropWhile (fun c => c ≠ sep)).drop 1)

/-- Thousands-separator handling of `parse_size` (lines 188-208): with the
flag set and a separator present, validate the grouping of the integer
part (every group after the first exactly 3 digits) and rebuild the
number without separators; with the flag clear, a separator inside the
numeric literal is an error. -/
def thousandsHandle (dp ts : Char) (allow : Bool) (number_part : List Char) :
    Except ParseErr (List Char) :=
  if allow then
    if ts ∈ number_part then
      let ifr := pypartition dp number_part
      let groups := ifr.1.splitOn ts
      if groups.length < 1 then .error .invalidThousandsGrouping
      else if (groups.drop 1).any (fun g => g.length ≠ 3) then .error .invalidThousandsGrouping
      else .ok (groups.flatten ++ (if ifr.2 ≠ [] then '.' :: ifr.2 else []))
    else .ok number_part
  else
    if ts ∈ number_part then .error .thousandsSeparatorNotAllowed
    else .ok number_part

/-- `parse_size` up to and including the multiplication
`bytes_dec = dec * Decimal(multiplier)` (lines 124-274): trimming, sign
extraction, the number/unit scan, separator handling, decimal-point
normalisation, literal parsing, unit resolution, sign application and the
exact product. -/
def parseProduct (text : String) (ps : ParseSpec) : Except ParseErr Dec :=
  if text = "" then .error .textMustBeNonEmptyString
  else
    let loc := LOCALES ps.locale
    let dp := loc.1
    let ts := loc.2
    let s0 := stripWs text.data
    if s0 = [] then .error .textMustBeNonEmptyString
    else
      let sc : Option Char × List Char :=
        if s0.headD ' ' = '+' ∨ s0.headD ' ' = '-'
          then (some (s0.headD ' '), lstripWs (s0.drop 1))
          else (none, s0)
      let sign_char := sc.1
      let s1 := sc.2
      let pr := numberUnitSplit dp ts ps.allow_thousands_separator s1 false false
      let number_part := rstripWs pr.1
      let unit_part := stripWs pr.2
      if number_part = [] then .error .noNumericValueFound
      else
        match thousandsHandle dp ts ps.allow_thousands_separator number_part with
        | .error e => .error e
        | .ok np1 =>
          let np2 :=
            if dp ≠ '.' then
              if dp ∈ np1 then np1.map (fun c => if c = dp then '.' else c) else np1
            else np1
          match decLiteral np2 with
          | none => .error .invalidNumericValue
          | some dec =>
            match resolveUnit unit_part ps.default_binary ps.default_gnu ps.strict with
            | .error e => .error e
            | .ok multiplier =>
              let dec2 := if sign_char = some '-' then Dec.mk (-dec.coeff) dec.exp else dec
              .ok (Dec.mk (dec2.coeff * (multiplier : ℤ)) dec2.exp)

/-- `Decimal.to_integral_value` under the source's `rounding_map`:
`ROUND_FLOOR` (toward minus infinity), `ROUND_CEILING` (toward plus
infinity), `ROUND_HALF_UP` (nearest, ties away from zero).  The divisor
`10 ^ k` with `k ≥ 1` is even, so `den / 2` is exact. -/
def toIntegral (mode : RoundingMode) (d : Dec) : ℤ :=
  if 0 ≤ d.exp then d.coeff * 10 ^ d.exp.toNat
  else
    let den : ℤ := 10 ^ (-d.exp).toNat
    match mode with
    | .floor => Int.fdiv d.coeff den
    | .ceil => -(Int.fdiv (-d.coeff) den)
    | .nearest =>
      if 0 ≤ d.coeff then Int.fdiv (d.coeff + den / 2) den
      else -(Int.fdiv (-d.coeff + den / 2) den)

/-- The maximum bound check (lines 289-290):
`if max_value is not None and rounded > max_value`. -/
def checkMax (ps : ParseSpec) (rounded : ℤ) : Except ParseErr ℤ :=
  match ps.max_value with
  | some mx => if mx < rounded then .error .greaterThanMaximum else .ok rounded
  | none => .ok rounded

/-- The minimum bound check (lines 287-288):
`if min_value is not None and rounded < min_value`, then the maximum
check. -/
def checkMin (ps : ParseSpec) (rounded : ℤ) : Except ParseErr ℤ :=
  match ps.min_value with
  | some mn => if rounded < mn then .error .lessThanMinimum else checkMax ps rounded
  | none => checkMax ps rounded

/-- Rounding (lines 276-280), the negative-value policy (lines 283-284)
and the bounds checks applied to the exact product. -/
def finishParse (ps : ParseSpec) (bytes_dec : Dec) : Except ParseErr ℤ :=
  let rounded := toIntegral ps.rounding bytes_dec
  if rounded < 0 ∧ ps.allow_negative = false then .error .negativeSizesNotAllowed
  else checkMin ps rounded

/-- `parse_size` (lines 89-292): the pipeline up to the exact product,
then rounding, the negative-value policy and the bounds checks. -/
def parse_size (text : String) (ps : ParseSpec) : Except ParseErr ℤ :=
  match parseProduct text ps with
  | .error e => .error e
  | .ok bytes_dec => finishParse ps bytes_dec

/-- A Python value at the dynamically-typed boundary of the two
functions: a string, an int, a float, a list, or `None`. -/
inductive PyVal where
  | str (s : String)
  | int (n : ℤ)
  | float (num : ℤ) (den : ℕ)
  | list (elems : List PyVal)
  | none

/-- Whether a `PyVal` is a Python `str`. -/
def PyVal.isStr : PyVal → Bool
  | .str _ => true
  | _ => false

/-- `parse_size` including the dynamic guard
`if not text or not isinstance(text, str)` (line 124): a non-string
argument of any truthiness raises `ValueError("text must be a non-empty
string")` (falsy values and non-strings both land in this branch), and a
string argument proceeds with the same emptiness check, which
`parse_size` performs. -/
def parse_size_py (text : PyVal) (ps : ParseSpec) : Except ParseErr ℤ :=
  match text with
  | .str s => parse_size s ps
  | _ => .error .textMustBeNonEmptyString

/-- An exact-rational model of a Python float, `num / den`. -/
structure PyFloat where
  num : ℤ
  den : ℕ

/-- The unit-ladder loop of `naturalsize` (lines 63-66):
`while size >= base and idx < len(units) - 1` with `size /= base` each
step.  Division is modelled exactly by scaling the denominator, so
`size >= base` becomes `base * den ≤ sizeNum`; the fuel argument is the
remaining headroom of `idx < 5`. -/
def ladderSteps (base sizeNum : ℕ) : ℕ → ℕ → ℕ
  | _, 0 => 0
  | den, fuel + 1 =>
    if base * den ≤ sizeNum then 1 + ladderSteps base sizeNum (den * base) fuel else 0

/-- Decimal digit characters of a natural number. -/
def natDigits (n : ℕ) : List Char := (Nat.repr n).data

/-- Zero-pad a digit list on the left to the given width. -/
def leftPadZeros (w : ℕ) (l : List Char) : List Char :=
  List.replicate (w - l.length) '0' ++ l

/-- `"%.<digits>f" % (n / d)` for a non-negative exact rational: scale,
round half to even (as `%` formatting of a float does at the cut), then
print the integer part and exactly `digits` fractional digits. -/
def formatFixed (digits n d : ℕ) : List Char :=
  let scaled := n * 10 ^ digits
  let q := scaled / d
  let r := scaled % d
  let m := if 2 * r < d then q else if d < 2 * r then q + 1 else if q % 2 = 0 then q else q + 1
  if digits = 0 then natDigits m
  else natDigits (m / 10 ^ digits) ++ '.' :: leftPadZeros digits (natDigits (m % 10 ^ digits))

/-- The trailing-zero stripping step of `naturalsize` (lines 73-78):
when requested and the rendered number has a decimal point, strip
trailing zeros, then a trailing point, and collapse a resulting `""` or
`"-0"` to `"0"`. -/
def stripNum (strip_trailing_zeros : Bool) (num : List Char) : List Char :=
  if strip_trailing_zeros ∧ '.' ∈ num then
    let y := rstripChar '.' (rstripChar '0' num)
    if y = [] ∨ y = ['-', '0'] then ['0'] else y
  else num

/-- The sign-suppression step of `naturalsize` (lines 80-82): show no
negative sign when the final rendered number is exactly `"0"`. -/
def fixSign (sign num : List Char) : List Char :=
  if sign ≠ [] ∧ num = ['0'] then [] else sign

/-- The body of `naturalsize` (lines 51-82) after numeric coercion,
returning the three pieces the final f-string concatenates: the sign, the
rendered numeral and the unit suffix.  Steps: record the sign and take
the magnitude (lines 51-52; a Python `-0.0` is not `< 0` and so gets an
empty sign, exactly like the rational 0 here); pick the ladder and walk
it (lines 54-66); format the scaled magnitude (line 71); strip trailing
zeros then a trailing point, collapsing `""`/`"-0"` to `"0"` (lines
75-78); and drop the sign when the numeral is exactly `"0"` (lines
81-82). -/
def naturalsizeParts (value : PyFloat) (binary gnu : Bool) (digits : ℕ)
    (strip_trailing_zeros : Bool) : List Char × List Char × List Char :=
  let sign : List Char := if value.num < 0 then ['-'] else []
  let sizeNum : ℕ := value.num.natAbs
  let base : ℕ := if binary then 1024 else 1000
  let units : List (List Char) :=
    if binary then ["B".data, "KiB".data, "MiB".data, "GiB".data, "TiB".data, "PiB".data]
    else ["B".data, "kB".data, "MB".data, "GB".data, "TB".data, "PB".data]
  let gnu_units : List (List Char) :=
    ["B".data, "K".data, "M".data, "G".data, "T".data, "P".data]
  let idx := ladderSteps base sizeNum value.den 5
  let suffix := (if gnu then gnu_units else units).getD idx []
  let num0 := formatFixed digits sizeNum (value.den * base ^ idx)
  let num1 := stripNum strip_trailing_zeros num0
  let sign2 := fixSign sign num1
  (sign2, num1, suffix)

/-- `naturalsize` (lines 18-86) on an already-coerced numeric value: the
f-string at lines 84-86, with no space before the suffix in GNU style and
exactly one otherwise. -/
def naturalsize (value : PyFloat) (binary gnu : Bool) (digits : ℕ)
    (strip_trailing_zeros : Bool) : String :=
  let parts := naturalsizeParts value binary gnu digits strip_trailing_zeros
  String.mk (parts.1 ++ parts.2.1 ++ (if gnu then [] else [' ']) ++ parts.2.2)

/-- Errors `naturalsize` can raise (lines 41-49). -/
inductive NaturalsizeErr where
  | valueMustBeNumeric
  | valueTypeError
  deriving DecidableEq

/-- Exception classes of `naturalsize`'s raises: the unparsable-string
raise (line 45) is a `ValueError`, the wrong-type raise (line 49) a
`TypeError`. -/
def NaturalsizeErr.excClass : NaturalsizeErr → PyExcClass
  | .valueMustBeNumeric => .valueError
  | .valueTypeError => .typeError

/-- `float(s)` on the numeric strings the claims use: optional
whitespace, optional sign, then the same literal grammar as `Decimal`
(the value is modelled exactly; `inf`/`nan` forms are not needed). -/
def pyFloatOfString (s : String) : Option PyFloat :=
  let l := stripWs s.data
  let sl : ℤ × List Char :=
    match l with
    | '+' :: t => (1, t)
    | '-' :: t => (-1, t)
    | t => (1, t)
  match decLiteral sl.2 with
  | some d =>
    if 0 ≤ d.exp then some ⟨sl.1 * d.coeff * 10 ^ d.exp.toNat, 1⟩
    else some ⟨sl.1 * d.coeff, 10 ^ (-d.exp).toNat⟩
  | none => none

/-- `naturalsize` including its dynamic input coercion (lines 41-49):
numeric strings go through `float(value)`, ints and floats are used
directly, anything else is a `TypeError`. -/
def naturalsize_py (value : PyVal) (binary gnu : Bool) (digits : ℕ)
    (strip_trailing_zeros : Bool) : Except NaturalsizeErr String :=
  match value with
  | .str s =>
    match pyFloatOfString s with
    | some f => .ok (naturalsize f binary gnu digits strip_trailing_zeros)
    | none => .error .valueMustBeNumeric
  | .int n => .ok (naturalsize ⟨n, 1⟩ binary gnu digits strip_trailing_zeros)
  | .float n d => .ok (naturalsize ⟨n, d⟩ binary gnu digits strip_trailing_zeros)
  | _ => .error .valueTypeError

instance {ε α : Type} [DecidableEq ε] [DecidableEq α] : DecidableEq (Except ε α) :=
  fun a b =>
    match a, b with
    | .error x, .error y =>
      if h : x = y then .isTrue (by rw [h]) else .isFalse (by simp [h])
    | .ok x, .ok y =>
      if h : x = y then .isTrue (by rw [h]) else .isFalse (by simp [h])
    | .error _, .ok _ => .isFalse (by simp)
    | .ok _, .error _ => .isFalse (by simp)

/-! ## Theorems settling the claims -/

/-- Claim C1, counterexample: the claim says every ambiguous unit token
parses under every combination of `strict` and `default_gnu`, and in
particular `parse_size("1K") == 1000` with all defaults.  With all
defaults (`strict=True`, `default_gnu=False`) the source instead raises
the "single-letter suffix is ambiguous" `ValueError` (lines 250-254). -/
theorem c1_counterexample :
    parse_size "1K" defaultSpec = .error .singleLetterAmbiguous ∧
    parse_size "1K" defaultSpec ≠ .ok 1000 := by
  exact ⟨by rfl, by decide⟩

/-- Claim C1, amended: ambiguous unit letters are limited to the keys of
the `powers` dict — `{k,m,g,t,p,e}`; `z` and `y` are absent.  For those
letters a legacy two-letter form `<letter>B` parses under every
combination of `strict` and `default_gnu` and a single-letter form parses
iff `default_gnu` is set or `strict` is cleared; whenever they parse, the
multiplier is `1000^n` or `1024^n` as chosen solely by `default_binary`.
`parse_size("1K", default_gnu=True)` is 1000, 1024 with
`default_binary=True`, and `parse_size("1KiB")` is 1024 regardless of
`default_binary`. -/
theorem c1_theorem (c : Char) (n : ℕ) (h : powers c = some n) (db dg st : Bool) :
    parse_size (String.mk ['1', c, 'B'])
      { defaultSpec with default_binary := db, default_gnu := dg, strict := st } =
      .ok (((if db then 1024 else 1000 : ℕ) ^ n : ℕ)) ∧
    parse_size (String.mk ['1', c])
      { defaultSpec with default_binary := db, default_gnu := dg, strict := st } =
      (if dg = true ∨ st = false then .ok (((if db then 1024 else 1000 : ℕ) ^ n : ℕ))
       else .error .singleLetterAmbiguous) ∧
    parse_size "1KiB" { defaultSpec with default_binary := db } = .ok 1024 ∧
    parse_size "1K" { defaultSpec with default_gnu := true } = .ok 1000 ∧
    parse_size "1K" { defaultSpec with default_gnu := true, default_binary := true } =
      .ok 1024 ∧
    parse_size "1Z" { defaultSpec with default_gnu := true } =
      .error .unknownOrUnsupportedUnit ∧
    parse_size "1ZB" defaultSpec = .error .unknownUnit := by
  unfold powers at h
  split_ifs at h with h1 h2 h3 h4 h5 h6 <;>
    injection h with hn <;> subst hn <;> subst_vars <;>
      cases db <;> cases dg <;> cases st <;>
        exact ⟨by decide, by decide, by decide, by decide, by decide, by decide, by decide⟩

/-- Claim C1, witness: the amended theorem applied at the letter `k`. -/
theorem c1_witness :
    parse_size (String.mk ['1', 'k', 'B'])
      { defaultSpec with default_binary := true, default_gnu := false, strict := true } =
      .ok 1024 ∧
    parse_size (String.mk ['1', 'k'])
      { defaultSpec with default_binary := true, default_gnu := false, strict := true } =
      .error .singleLetterAmbiguous ∧
    parse_size "1KiB" { defaultSpec with default_binary := true } = .ok 1024 ∧
    parse_size "1K" { defaultSpec with default_gnu := true } = .ok 1000 ∧
    parse_size "1K" { defaultSpec with default_gnu := true, default_binary := true } =
      .ok 1024 ∧
    parse_size "1Z" { defaultSpec with default_gnu := true } =
      .error .unknownOrUnsupportedUnit ∧
    parse_size "1ZB" defaultSpec = .error .unknownUnit :=
  c1_theorem 'k' 1 rfl true false true

/-- Claim C2: `parse_size(str(2**70))` is exactly `2**70` (no precision
loss), but the unit ladder stops at `e` — the `powers` dict has no `z` or
`y` entry — so `"1 EiB"` parses while `"1 ZiB"` and `"1 YiB"` raise
"unknown unit" instead of producing `1024^7` and `1024^8`: the code
contradicts its own tests (`test_larger_binary_units` expects
`parse_size("1 YiB") == 2**80`). -/
theorem c2_theorem :
    parse_size (Nat.repr (2 ^ 70)) defaultSpec = .ok (2 ^ 70) ∧
    parse_size "1 EiB" defaultSpec = .ok (1024 ^ 6) ∧
    parse_size "1 ZiB" defaultSpec = .error .unknownUnit ∧
    parse_size "1 YiB" defaultSpec = .error .unknownUnit ∧
    parse_size "1 YiB" defaultSpec ≠ .ok (2 ^ 80) := by
  refine ⟨by rfl, by rfl, by rfl, by rfl, by decide⟩

/-- Claim C3, counterexample: the claim says that with `allow_negative`
false any input whose trimmed text begins with `-` fails immediately with
the negative error.  The source only checks the sign of the final rounded
value (lines 283-284), so `"-0"` — which begins with `-` and rounds to
0 — parses successfully. -/
theorem c3_counterexample :
    parse_size "-0" defaultSpec = .ok 0 ∧
    parse_size "-abc" defaultSpec = .error .noNumericValueFound ∧
    parse_size "-abc" defaultSpec ≠ .error .negativeSizesNotAllowed := by
  exact ⟨by rfl, by rfl, by decide⟩

/-- Claim C4, counterexample: the claim says every unknown unit token is
treated as multiplier 1 when `strict=False`.  The legacy branch for
tokens ending in `b` (lines 243-246) raises "unknown unit" before the
permissive fallback is ever consulted, so `parse_size("100 XB",
strict=False)` fails; and the fallback itself resolves a token by its
first letter when that letter is a known prefix, so `parse_size("100 KX",
strict=False)` is 100000, not 100. -/
theorem c4_counterexample :
    parse_size "100 XB" { defaultSpec with strict := false } = .error .unknownUnit ∧
    parse_size "100 XB" { defaultSpec with strict := false } ≠ .ok 100 ∧
    parse_size "100 KX" { defaultSpec with strict := false } = .ok 100000 := by
  exact ⟨by rfl, by decide, by rfl⟩

/-- Claim C4, amended: in strict mode an unknown unit token fails with an
unknown-unit error.  Permissive mode does not always fall back to
multiplier 1: a token ending in `b` (or `ib`) with an unrecognised prefix
fails with "unknown unit" even when `strict=False`, and a token whose
first letter is a known prefix resolves to that prefix's multiplier
(`"100 KX"` → 100000); only a token whose first letter is unknown is
treated as bytes, as in `parse_size("100 XYZ", strict=False) == 100` —
in general the permissive fallback yields multiplier 1 exactly when the
token's first character is not a `powers` key. -/
theorem c4_theorem :
    parse_size "100 XYZ" defaultSpec = .error .unknownOrUnsupportedUnit ∧
    parse_size "100 XYZ" { defaultSpec with strict := false } = .ok 100 ∧
    parse_size "100 XB" defaultSpec = .error .unknownUnit ∧
    parse_size "100 XB" { defaultSpec with strict := false } = .error .unknownUnit ∧
    parse_size "100 KX" { defaultSpec with strict := false } = .ok 100000 ∧
    parse_size "1X" { defaultSpec with strict := false } = .ok 1 ∧
    (∀ (u : List Char) (db : Bool), powers (u.headD ' ') = none →
      unitFallback u db false = .ok 1) := by
  refine ⟨by rfl, by rfl, by rfl, by rfl, by rfl, by rfl, ?_⟩
  intro u db h
  cases u with
  | nil => rfl
  | cons c rest =>
    simp only [List.headD_cons] at h
    simp [unitFallback, h]

/-- Claim C5: the source's guard `if not text or not isinstance(text,
str)` (line 124) raises `ValueError("text must be a non-empty string")`
for every non-string argument, so the failure is a value error and not
the type error the claim (and the repository's own
`test_non_string_input`, which expects `TypeError`) requires. -/
theorem c5_theorem (v : PyVal) (h : v.isStr = false) (ps : ParseSpec) :
    parse_size_py v ps = .error .textMustBeNonEmptyString ∧
    ParseErr.excClass .textMustBeNonEmptyString = .valueError ∧
    ParseErr.excClass .textMustBeNonEmptyString ≠ .typeError := by
  refine ⟨?_, by rfl, by decide⟩
  cases v <;> simp_all [parse_size_py, PyVal.isStr]

/-- Claim C5, witness: an integer argument (`parse_size(1000)`). -/
theorem c5_witness :
    parse_size_py (.int 1000) defaultSpec = .error .textMustBeNonEmptyString ∧
    ParseErr.excClass .textMustBeNonEmptyString = .valueError ∧
    ParseErr.excClass .textMustBeNonEmptyString ≠ .typeError :=
  c5_theorem (.int 1000) rfl defaultSpec

/-- Claim C7: rounding follows the source's `rounding_map` — `floor`
toward minus infinity, `ceil` toward plus infinity, `nearest` with ties
away from zero (`ROUND_HALF_UP`): the claim's four positive examples, the
negative examples showing direction on negatives, and the general
tie-breaking law `n + 0.5 → n + 1`, `-(n + 0.5) → -(n + 1)` for the
modelled `to_integral_value`. -/
theorem c7_theorem :
    parse_size "1.5 B" defaultSpec = .ok 2 ∧
    parse_size "1.5 B" { defaultSpec with rounding := .floor } = .ok 1 ∧
    parse_size "1.5 B" { defaultSpec with rounding := .ceil } = .ok 2 ∧
    parse_size "1.9 B" { defaultSpec with rounding := .floor } = .ok 1 ∧
    parse_size "-1.5 B" { defaultSpec with allow_negative := true } = .ok (-2) ∧
    parse_size "-1.9 B" { defaultSpec with rounding := .floor, allow_negative := true } =
      .ok (-2) ∧
    parse_size "-1.1 B" { defaultSpec with rounding := .ceil, allow_negative := true } =
      .ok (-1) ∧
    (∀ n : ℕ,
      toIntegral .nearest ⟨10 * (n : ℤ) + 5, -1⟩ = (n : ℤ) + 1 ∧
      toIntegral .nearest ⟨-(10 * (n : ℤ) + 5), -1⟩ = -((n : ℤ) + 1)) := by
  refine ⟨by rfl, by rfl, by rfl, by rfl, by rfl, by rfl, by rfl, ?_⟩
  intro n
  have hpos : (0 : ℤ) ≤ 10 * (n : ℤ) + 5 := by positivity
  have hneg : ¬(0 : ℤ) ≤ -(10 * (n : ℤ) + 5) := by omega
  have unf : ∀ c : ℤ, toIntegral .nearest ⟨c, -1⟩ =
      if 0 ≤ c then Int.fdiv (c + 5) 10 else -(Int.fdiv (-c + 5) 10) := fun c => rfl
  have key : Int.fdiv (10 * ((n : ℤ) + 1)) 10 = (n : ℤ) + 1 := by
    rw [Int.fdiv_eq_ediv _ (by norm_num)]
    exact Int.mul_ediv_cancel_left _ (by norm_num)
  constructor
  · rw [unf, if_pos hpos, show (10 * (n : ℤ) + 5 + 5) = 10 * ((n : ℤ) + 1) by ring]
    exact key
  · rw [unf, if_neg hneg, show (-(-(10 * (n : ℤ) + 5)) + 5) = 10 * ((n : ℤ) + 1) by ring,
      key]

/-- Claim C9: the round trip is exact at the binary rungs 0, 1, 1024,
1024², 1024³: formatting with `binary=True` and parsing the result with
`default_binary=True` returns the value exactly. -/
theorem c9_theorem :
    parse_size (naturalsize ⟨0, 1⟩ true false 1 false)
      { defaultSpec with default_binary := true } = .ok 0 ∧
    parse_size (naturalsize ⟨1, 1⟩ true false 1 false)
      { defaultSpec with default_binary := true } = .ok 1 ∧
    parse_size (naturalsize ⟨1024, 1⟩ true false 1 false)
      { defaultSpec with default_binary := true } = .ok 1024 ∧
    parse_size (naturalsize ⟨1024 ^ 2, 1⟩ true false 1 false)
      { defaultSpec with default_binary := true } = .ok (1024 ^ 2) ∧
    parse_size (naturalsize ⟨1024 ^ 3, 1⟩ true false 1 false)
      { defaultSpec with default_binary := true } = .ok (1024 ^ 3) := by
  exact ⟨by rfl, by rfl, by rfl, by rfl, by rfl⟩

theorem split_allDigits (dp ts : Char) (allowSep : Bool) :
    ∀ (l : List Char), (∀ c ∈ l, c.isDigit) → ∀ (sd se : Bool),
      numberUnitSplit dp ts allowSep l sd se = (l, []) := by
  intro l
  induction l with
  | nil => intro _ sd se; rfl
  | cons c rest ih =>
    intro h sd se
    have hc : c.isDigit := h c (by simp)
    have hrest : ∀ x ∈ rest, x.isDigit := fun x hx => h x (by simp [hx])
    rw [numberUnitSplit.eq_def]
    simp [hc, ih hrest sd se]

theorem ts_not_mem_scan (dp ts : Char) (hdig : ts.isDigit = false) (hdp : ts ≠ dp)
    (hpe : ts ≠ 'e') (hpE : ts ≠ 'E') (hpp : ts ≠ '+') (hpm : ts ≠ '-') :
    ∀ (l : List Char) (sd se : Bool), ts ∉ (numberUnitSplit dp ts false l sd se).1 := by
  intro l sd se
  induction l, sd, se using numberUnitSplit.induct dp ts false with
  | case1 sd se => simp [numberUnitSplit]
  | case2 c rest sd se hc ih =>
    have htc : ¬ts = c := fun h => by rw [← h, hdig] at hc; cases hc
    rw [numberUnitSplit.eq_def]
    simp [hc, htc, ih]
  | case3 c rest sd se h1 h ih =>
    obtain ⟨hcd, hsd, hse⟩ := h
    subst hcd hsd hse
    rw [numberUnitSplit.eq_def]
    simp [h1, hdp, ih]
  | case4 c rest sd se h1 h2 h3 ih => simp at h3
  | case5 c sd se h1 h2 h3 h4 s hs c3 rest3 hc3 ih =>
    obtain ⟨hor, hse⟩ := h4
    subst hse
    have htc : ¬ts = c := by rcases hor with h | h <;> subst h <;> assumption
    have hts2 : ¬ts = s := by rcases hs with h | h <;> subst h <;> assumption
    have hts3 : ¬ts = c3 := fun h => by rw [← h, hdig] at hc3; cases hc3
    have h2x : ¬(c = dp ∧ sd = false) := by simpa using h2
    rw [numberUnitSplit.eq_def]
    simp [h1, h2x, hor, hs, hc3, htc, hts2, hts3, ih]
  | case6 c sd se h1 h2 h3 h4 s hs c3 rest3 hc3 =>
    obtain ⟨hor, hse⟩ := h4
    subst hse
    have h2x : ¬(c = dp ∧ sd = false) := by simpa using h2
    rw [numberUnitSplit.eq_def]
    simp [h1, h2x, hor, hs, hc3]
  | case7 c sd se h1 h2 h3 h4 s hs =>
    obtain ⟨hor, hse⟩ := h4
    subst hse
    have h2x : ¬(c = dp ∧ sd = false) := by simpa using h2
    rw [numberUnitSplit.eq_def]
    simp [h1, h2x, hor, hs]
  | case8 c sd se h1 h2 h3 h4 c2 rest2 hns hc2 ih =>
    obtain ⟨hor, hse⟩ := h4
    subst hse
    have htc : ¬ts = c := by rcases hor with h | h <;> subst h <;> assumption
    have hts2 : ¬ts = c2 := fun h => by rw [← h, hdig] at hc2; cases hc2
    have h2x : ¬(c = dp ∧ sd = false) := by simpa using h2
    rw [numberUnitSplit.eq_def]
    simp [h1, h2x, hor, hns, hc2, htc, hts2, ih]
  | case9 c sd se h1 h2 h3 h4 c2 rest2 hns hc2 =>
    obtain ⟨hor, hse⟩ := h4
    subst hse
    have h2x : ¬(c = dp ∧ sd = false) := by simpa using h2
    rw [numberUnitSplit.eq_def]
    simp [h1, h2x, hor, hns, hc2]
  | case10 c sd se h1 h2 h3 h4 =>
    obtain ⟨hor, hse⟩ := h4
    subst hse
    have h2x : ¬(c = dp ∧ sd = false) := by simpa using h2
    rw [numberUnitSplit.eq_def]
    simp [h1, h2x, hor]
  | case11 c rest sd se h1 h2 h3 h4 =>
    rw [numberUnitSplit.eq_def]
    simp [h1, h2, h3, h4]

theorem not_mem_rstripWs {c : Char} {l : List Char} (h : c ∉ l) : c ∉ rstripWs l := by
  intro hmem
  apply h
  unfold rstripWs at hmem
  rw [List.mem_reverse] at hmem
  exact List.mem_reverse.mp (List.dropWhile_subset _ hmem)

theorem resolveUnit_ne_sep (u : List Char) (db dg st : Bool) :
    resolveUnit u db dg st ≠ .error .thousandsSeparatorNotAllowed := by
  intro hc
  cases dg <;> cases st <;>
      simp only [resolveUnit, unitFallback] at hc <;>
    (repeat' split at hc) <;> simp at hc

theorem thousandsHandle_false_ok (dp ts : Char) (np : List Char) (h : ts ∉ np) :
    thousandsHandle dp ts false np = .ok np := by
  unfold thousandsHandle
  simp [h]

set_option maxHeartbeats 1600000 in
theorem parseProduct_no_sep (text : String) (ps : ParseSpec)
    (h : ps.allow_thousands_separator = false) :
    parseProduct text ps ≠ .error .thousandsSeparatorNotAllowed := by
  have hloc : LOCALES ps.locale = ('.', ',') ∨ LOCALES ps.locale = (',', '.') := by
    unfold LOCALES
    split_ifs <;> simp
  intro hc
  unfold parseProduct at hc
  rw [h] at hc
  rcases hloc with hl | hl
  · rw [hl] at hc
    simp only [] at hc
    repeat' split at hc
    all_goals try (first
      | exact Except.noConfusion hc
      | (injection hc with h2; exact ParseErr.noConfusion h2)
      | simp at hc)
    all_goals (rename_i e heq; rw [hc] at heq)
    all_goals first
      | (rw [thousandsHandle_false_ok '.' ',' _ (not_mem_rstripWs (ts_not_mem_scan '.' ','
           (by decide) (by decide) (by decide) (by decide) (by decide) (by decide)
           _ false false))] at heq; simp at heq)
      | exact resolveUnit_ne_sep _ _ _ _ heq
  · rw [hl] at hc
    simp only [] at hc
    repeat' split at hc
    all_goals try (first
      | exact Except.noConfusion hc
      | (injection hc with h2; exact ParseErr.noConfusion h2)
      | simp at hc)
    all_goals (rename_i e heq; rw [hc] at heq)
    all_goals first
      | (rw [thousandsHandle_false_ok ',' '.' _ (not_mem_rstripWs (ts_not_mem_scan ',' '.'
           (by decide) (by decide) (by decide) (by decide) (by decide) (by decide)
           _ false false))] at heq; simp at heq)
      | exact resolveUnit_ne_sep _ _ _ _ heq

theorem checkMax_ne_sep (ps : ParseSpec) (r : ℤ) :
    checkMax ps r ≠ .error .thousandsSeparatorNotAllowed := by
  unfold checkMax
  split
  · split <;> simp
  · simp

theorem checkMin_ne_sep (ps : ParseSpec) (r : ℤ) :
    checkMin ps r ≠ .error .thousandsSeparatorNotAllowed := by
  unfold checkMin
  split
  · split
    · simp
    · exact checkMax_ne_sep ps r
  · exact checkMax_ne_sep ps r

theorem finishParse_ne_sep (ps : ParseSpec) (d : Dec) :
    finishParse ps d ≠ .error .thousandsSeparatorNotAllowed := by
  unfold finishParse
  simp only []
  split
  · simp
  · exact checkMin_ne_sep ps _

theorem parse_size_no_sep (text : String) (ps : ParseSpec)
    (h : ps.allow_thousands_separator = false) :
    parse_size text ps ≠ .error .thousandsSeparatorNotAllowed := by
  intro hc
  unfold parse_size at hc
  split at hc
  · next e heq =>
    injection hc with h2
    rw [h2] at heq
    exact parseProduct_no_sep text ps h heq
  · exact finishParse_ne_sep ps _ hc

theorem checkMax_ok (ps : ParseSpec) (r z : ℤ) (h : checkMax ps r = .ok z) : r = z := by
  unfold checkMax at h
  split at h
  · split at h
    · exact Except.noConfusion h
    · injection h
  · injection h

theorem checkMin_ok (ps : ParseSpec) (r z : ℤ) (h : checkMin ps r = .ok z) : r = z := by
  unfold checkMin at h
  split at h
  · split at h
    · exact Except.noConfusion h
    · exact checkMax_ok ps r z h
  · exact checkMax_ok ps r z h

theorem finishParse_nonneg (ps : ParseSpec) (d : Dec) (z : ℤ)
    (h : ps.allow_negative = false) (hok : finishParse ps d = .ok z) : 0 ≤ z := by
  unfold finishParse at hok
  simp only [] at hok
  split at hok
  · exact Except.noConfusion hok
  · next hneg =>
    have hrz := checkMin_ok ps _ z hok
    rw [h] at hneg
    simp only [and_true] at hneg
    omega

/-- Claim C3, amended: with `allow_negative` false, negativity is
enforced on the final rounded value, not on the leading sign: every
successful parse returns a non-negative integer, `"-100 B"` fails with
the negative-sizes error, `"-abc"` fails with the no-numeric-value error
(not the negative error), and with `allow_negative=True`,
`parse_size("-100 B")` is -100. -/
theorem c3_theorem (text : String) (ps : ParseSpec) (h : ps.allow_negative = false)
    (z : ℤ) (hok : parse_size text ps = .ok z) :
    0 ≤ z ∧
    parse_size "-100 B" defaultSpec = .error .negativeSizesNotAllowed ∧
    parse_size "-100 B" { defaultSpec with allow_negative := true } = .ok (-100) ∧
    parse_size "-abc" defaultSpec = .error .noNumericValueFound := by
  refine ⟨?_, by rfl, by rfl, by rfl⟩
  unfold parse_size at hok
  split at hok
  · exact Except.noConfusion hok
  · exact finishParse_nonneg ps _ z h hok

/-- Claim C3, witness: the amended theorem applied to the input `"5"`,
which parses to 5. -/
theorem c3_witness :
    (0 : ℤ) ≤ 5 ∧
    parse_size "-100 B" defaultSpec = .error .negativeSizesNotAllowed ∧
    parse_size "-100 B" { defaultSpec with allow_negative := true } = .ok (-100) ∧
    parse_size "-abc" defaultSpec = .error .noNumericValueFound :=
  c3_theorem "5" defaultSpec rfl 5 rfl

/-- Claim C6, counterexample: the claim says a grouping separator in the
numeric literal fails with the "separator not allowed" error when
`allow_thousands_separator` is false.  The scan stops the numeric literal
at the disallowed separator instead, so `parse_size("1,000 B")` fails
with the "unknown unit" error (the unit field is `",000 B"`), never with
the separator error. -/
theorem c6_counterexample :
    parse_size "1,000 B" defaultSpec = .error .unknownUnit ∧
    parse_size "1,000 B" defaultSpec ≠ .error .thousandsSeparatorNotAllowed := by
  exact ⟨by rfl, by decide⟩

/-- Claim C6, amended: with `allow_thousands_separator` true, grouping is
validated (every group after the first exactly 3 digits) and stripped —
`"1,000 B"` is 1000, `"1,00 B"` fails with the grouping error; with the
flag false (the default) `"1,000 B"` still fails, but with an
unknown-unit error, because the separator terminates the numeric literal
before the dedicated separator check can ever see it: no input at all can
produce the separator-not-allowed error when the flag is false. -/
theorem c6_theorem :
    parse_size "1,000 B" { defaultSpec with allow_thousands_separator := true } = .ok 1000 ∧
    parse_size "1,000,000 B" { defaultSpec with allow_thousands_separator := true } =
      .ok 1000000 ∧
    parse_size "1,234.56 kB" { defaultSpec with allow_thousands_separator := true } =
      .ok 1234560 ∧
    parse_size "1,00 B" { defaultSpec with allow_thousands_separator := true } =
      .error .invalidThousandsGrouping ∧
    parse_size "1,000 B" defaultSpec = .error .unknownUnit ∧
    (∀ (text : String) (ps : ParseSpec), ps.allow_thousands_separator = false →
      parse_size text ps ≠ .error .thousandsSeparatorNotAllowed) :=
  ⟨by rfl, by rfl, by rfl, by rfl, by rfl, parse_size_no_sep⟩

theorem stripNum_true_props (num : List Char) (hdot : '.' ∈ num) :
    stripNum true num ≠ [] ∧ stripNum true num ≠ ['-', '0'] := by
  unfold stripNum
  rw [if_pos ⟨rfl, hdot⟩]
  simp only []
  split
  · exact ⟨by decide, by decide⟩
  · next hy =>
    push_neg at hy
    exact hy

theorem fixSign_zero (sign num : List Char) (h : num = ['0']) : fixSign sign num = [] := by
  unfold fixSign
  subst h
  rcases eq_or_ne sign [] with hs | hs
  · rw [if_neg]
    · exact hs
    · simp [hs]
  · rw [if_pos ⟨hs, rfl⟩]

theorem formatFixed_has_dot (digits n d : ℕ) (h : ¬digits = 0) :
    '.' ∈ formatFixed digits n d := by
  unfold formatFixed
  rw [if_neg h]
  simp


theorem exponent_consumed (dp ts : Char) (allowSep : Bool) (ech : Char)
    (hech : ech = 'e' ∨ ech = 'E') (hdp : dp ≠ ech) (hts : ts ≠ ech)
    (a sgn b : List Char) (ha : a ≠ []) (had : ∀ c ∈ a, c.isDigit)
    (hsgn : sgn = [] ∨ sgn = ['+'] ∨ sgn = ['-'])
    (hb : b ≠ []) (hbd : ∀ c ∈ b, c.isDigit) (sd : Bool) :
    numberUnitSplit dp ts allowSep (a ++ ech :: (sgn ++ b)) sd false
      = (a ++ ech :: (sgn ++ b), []) := by
  have hed : ech.isDigit = false := by
    rcases hech with h | h <;> subst h <;> decide
  have hstep : ∀ (sd : Bool), numberUnitSplit dp ts allowSep (ech :: (sgn ++ b)) sd false
      = (ech :: (sgn ++ b), []) := by
    intro sd
    rcases hsgn with h | h | h <;> subst h
    · cases b with
      | nil => exact absurd rfl hb
      | cons c2 rest2 =>
        have hc2 : c2.isDigit := hbd c2 (by simp)
        have hc2ne : ¬(c2 = '+' ∨ c2 = '-') := by
          rintro (h | h) <;> subst h <;> simp at hc2
        have hr2 : ∀ x ∈ rest2, x.isDigit := fun x hx => hbd x (by simp [hx])
        rw [numberUnitSplit.eq_def]
        simp [hed, Ne.symm hdp, Ne.symm hts, hech, hc2ne, hc2,
          split_allDigits dp ts allowSep rest2 hr2 sd true]
    · cases b with
      | nil => exact absurd rfl hb
      | cons c3 rest3 =>
        have hc3 : c3.isDigit := hbd c3 (by simp)
        have hr3 : ∀ x ∈ rest3, x.isDigit := fun x hx => hbd x (by simp [hx])
        rw [numberUnitSplit.eq_def]
        simp [hed, Ne.symm hdp, Ne.symm hts, hech, hc3,
          split_allDigits dp ts allowSep rest3 hr3 sd true]
    · cases b with
      | nil => exact absurd rfl hb
      | cons c3 rest3 =>
        have hc3 : c3.isDigit := hbd c3 (by simp)
        have hr3 : ∀ x ∈ rest3, x.isDigit := fun x hx => hbd x (by simp [hx])
        rw [numberUnitSplit.eq_def]
        simp [hed, Ne.symm hdp, Ne.symm hts, hech, hc3,
          split_allDigits dp ts allowSep rest3 hr3 sd true]
  induction a with
  | nil => exact absurd rfl ha
  | cons c arest ih =>
    have hc : c.isDigit := had c (by simp)
    cases arest with
    | nil =>
      simp only [List.nil_append, List.cons_append]
      rw [numberUnitSplit.eq_def]
      simp [hc, hstep sd]
    | cons c2 arest2 =>
      have harest : (c2 :: arest2) ≠ [] := by simp
      have harestd : ∀ x ∈ (c2 :: arest2), x.isDigit := fun x hx => had x (by simp [hx])
      have hih := ih harest harestd
      simp only [List.cons_append] at hih ⊢
      rw [numberUnitSplit.eq_def]
      simp [hc, hih]

/-- Claim C8: with `strip_trailing_zeros` set a zero magnitude renders as
`"0 B"` (`"0B"` in GNU style), a negative-zero float input renders with no
sign, and — for every input under the default numeric format — the
rendered numeral is never empty, never `"-0"`, and the sign is suppressed
whenever the final numeral is exactly `"0"`. -/
theorem c8_theorem :
    naturalsize ⟨0, 1⟩ false false 1 true = "0 B" ∧
    naturalsize ⟨0, 1⟩ true false 1 true = "0 B" ∧
    naturalsize ⟨0, 1⟩ false true 1 true = "0B" ∧
    naturalsize ⟨0, 1⟩ true true 1 true = "0B" ∧
    naturalsize_py (.str "-0.0") false false 1 true = .ok "0 B" ∧
    naturalsize_py (.str "-0.0") false false 1 false = .ok "0.0 B" ∧
    (∀ (v : PyFloat) (binary gnu : Bool),
      (naturalsizeParts v binary gnu 1 true).2.1 ≠ [] ∧
      (naturalsizeParts v binary gnu 1 true).2.1 ≠ ['-', '0'] ∧
      ((naturalsizeParts v binary gnu 1 true).2.1 = ['0'] →
        (naturalsizeParts v binary gnu 1 true).1 = [])) := by
  refine ⟨by rfl, by rfl, by rfl, by rfl, by rfl, by rfl, ?_⟩
  intro v binary gnu
  have hrw : (naturalsizeParts v binary gnu 1 true).2.1
      = stripNum true (formatFixed 1 v.num.natAbs
          (v.den * (if binary then 1024 else 1000) ^
            ladderSteps (if binary then 1024 else 1000) v.num.natAbs v.den 5)) := rfl
  have hrws : (naturalsizeParts v binary gnu 1 true).1
      = fixSign (if v.num < 0 then ['-'] else [])
          (naturalsizeParts v binary gnu 1 true).2.1 := rfl
  obtain ⟨h1, h2⟩ := stripNum_true_props _ (formatFixed_has_dot 1 _ _ (by decide))
  refine ⟨?_, ?_, ?_⟩
  · rw [hrw]; exact h1
  · rw [hrw]; exact h2
  · intro h0
    rw [hrws]
    exact fixSign_zero _ _ h0

/-- Claim C10: a well-formed exponent marker — digits, then `e`/`E`
followed by an optional sign and at least one digit — is always consumed
as part of the numeric literal by the scan, so the unit field is empty
and the single-letter exa unit is never seen there: `parse_size("1E3")`
is 1000 plain bytes under every relevant flag setting, while the exa unit
is reached only when the marker is not followed by a digit (`"1 E"`,
`"1E"` with `default_gnu`). -/
theorem c10_theorem (dp ts : Char) (allowSep : Bool) (ech : Char)
    (hech : ech = 'e' ∨ ech = 'E') (hdp : dp ≠ ech) (hts : ts ≠ ech)
    (a sgn b : List Char) (ha : a ≠ []) (had : ∀ c ∈ a, c.isDigit)
    (hsgn : sgn = [] ∨ sgn = ['+'] ∨ sgn = ['-'])
    (hb : b ≠ []) (hbd : ∀ c ∈ b, c.isDigit) (sd : Bool) :
    numberUnitSplit dp ts allowSep (a ++ ech :: (sgn ++ b)) sd false
      = (a ++ ech :: (sgn ++ b), []) ∧
    parse_size "1E3" defaultSpec = .ok 1000 ∧
    parse_size "1e3 B" defaultSpec = .ok 1000 ∧
    parse_size "2E-1 KB" defaultSpec = .ok 200 ∧
    parse_size "1 E" { defaultSpec with default_gnu := true } = .ok 1000000000000000000 ∧
    parse_size "1E" { defaultSpec with default_gnu := true } = .ok 1000000000000000000 :=
  ⟨exponent_consumed dp ts allowSep ech hech hdp hts a sgn b ha had hsgn hb hbd sd,
   by rfl, by rfl, by rfl, by rfl, by rfl⟩

/-- Claim C10, witness: `"1E3"` — the scan of `1·E·3` consumes the
exponent whole. -/
theorem c10_witness :
    numberUnitSplit '.' ',' false (['1'] ++ 'E' :: ([] ++ ['3'])) false false
      = (['1'] ++ 'E' :: ([] ++ ['3']), []) ∧
    parse_size "1E3" defaultSpec = .ok 1000 ∧
    parse_size "1e3 B" defaultSpec = .ok 1000 ∧
    parse_size "2E-1 KB" defaultSpec = .ok 200 ∧
    parse_size "1 E" { defaultSpec with default_gnu := true } = .ok 1000000000000000000 ∧
    parse_size "1E" { defaultSpec with default_gnu := true } = .ok 1000000000000000000 :=
  c10_theorem '.' ',' false 'E' (Or.inr rfl) (by decide) (by decide) ['1'] [] ['3']
    (by decide) (by decide) (Or.inl rfl) (by decide) (by decide) false


end Sizecodec
